import Mathlib

/-!
# usrv-accounts: the account request pipeline

A shallow embedding of `routes.go` (the handlers `DBCollection`, `AccountPayload`,
`ThrowErr`, `Accounts`, `AccountDetails`) together with the parts of their
collaborators that the handlers rely on:

* the request context of the web framework (key/value store, abort flag,
  response writer), as explicit state `Context`;
* the logger, as records appended to the ordered list of observable effects;
* the document collection, as explicit state `Collection`;
* the account record and its validators / store queries, which are defined in other
  files of the repository and are modelled here from the specification.
-/

namespace UsrvAccounts

/-! ## Status codes (net/http) -/

def StatusOK : Nat := 200
def StatusCreated : Nat := 201
def StatusBadRequest : Nat := 400
def StatusNotFound : Nat := 404
def StatusInternalServerError : Nat := 500

/-! ## JSON values -/

/-- JSON documents, at the level of values (the byte-level syntax is the business of the
JSON library: a body that is not the text of a JSON value is `none` in `Context.body`). -/
inductive Json where
  | null : Json
  | bool (b : Bool) : Json
  | num (n : Int) : Json
  | str (s : String) : Json
  | arr (xs : List Json) : Json
  | obj (kvs : List (String × Json)) : Json

/-- The map literal `gin.H{...}` given as its key/value pairs. -/
def H (kvs : List (String × Json)) : Json := Json.obj kvs

/-! ## The account record -/

/-- Modelled from the spec: the record type `UserAccount` is declared outside `routes.go`;
the spec gives its payload fields (email, phone, title) and the tests use the Go fields
`Email`, `Phone`, `Title`. -/
structure UserAccount where
  Email : String
  Phone : String
  Title : String
deriving DecidableEq, Repr

/-- Accessor of the `Account` interface. -/
def UserAccount.GetEmail (a : UserAccount) : String := a.Email

/-- Accessor of the `Account` interface. -/
def UserAccount.GetPhone (a : UserAccount) : String := a.Phone

/-- Accessor of the `Account` interface. -/
def UserAccount.GetTitle (a : UserAccount) : String := a.Title

/-- Errors are identified with their message. -/
abbrev Error := String

/-- Modelled from the spec: the JSON encoding of an account record (`json.Marshal` of a
`UserAccount`), an object with the members `email`, `phone` and `title`. -/
def UserAccount.toJson (a : UserAccount) : Json :=
  Json.obj [("email", Json.str a.Email), ("phone", Json.str a.Phone), ("title", Json.str a.Title)]

/-- Comparison of an object key with a field name ignoring letter case, the way the JSON
library matches keys to fields. -/
def equalFold (key name : String) : Bool :=
  key.toList.map Char.toLower = name.toList

/-- One member of a JSON object decoded into the record under construction: a known key
with a string sets the field, with `null` leaves it, with anything else is a type error;
an unknown key is skipped. -/
def decodeMember (acc : Except Error UserAccount) (kv : String × Json) : Except Error UserAccount :=
  match acc with
  | .error e => .error e
  | .ok a =>
    if equalFold kv.1 "email" then
      match kv.2 with
      | .str s => .ok { a with Email := s }
      | .null => .ok a
      | _ => .error "json: cannot unmarshal value into field email of type string"
    else if equalFold kv.1 "phone" then
      match kv.2 with
      | .str s => .ok { a with Phone := s }
      | .null => .ok a
      | _ => .error "json: cannot unmarshal value into field phone of type string"
    else if equalFold kv.1 "title" then
      match kv.2 with
      | .str s => .ok { a with Title := s }
      | .null => .ok a
      | _ => .error "json: cannot unmarshal value into field title of type string"
    else .ok a

/-- Decoding of a JSON value into an existing record (`json.Unmarshal` into a struct
pointer): `null` leaves the record as it is, an object is decoded member by member in
document order, every other value is a type error. -/
def decodeInto (a : UserAccount) : Json → Except Error UserAccount
  | .null => .ok a
  | .obj kvs => kvs.foldl decodeMember (.ok a)
  | _ => .error "json: cannot unmarshal value into Go value of type UserAccount"

/-! ## The document collection -/

/-- A stored account document: the record with the identifier the store generated. -/
structure Document where
  id : Nat
  email : String
  phone : String
  title : String
deriving DecidableEq, Repr

/-- Modelled from the spec: the persistence collaborator (a `*mongo.Collection`), a list of
documents with the next identifier to hand out, the number of write commands it has
received, and the answer its server gives to an insert (`none` when it accepts). -/
structure Collection where
  docs : List Document
  nextID : Nat
  writes : Nat
  insertErr : Option Error
deriving DecidableEq, Repr

/-! ## Logging (logrus) -/

/-- A value of a log field. -/
inductive LogVal where
  | nil : LogVal
  | str (s : String) : LogVal
deriving DecidableEq, Repr

/-- A log entry under construction (`log.WithFields(log.Fields{...})`). -/
structure Entry where
  fields : List (String × LogVal)
deriving DecidableEq, Repr

/-- The entry made by `log.WithFields`. -/
def WithFields (fields : List (String × LogVal)) : Entry := ⟨fields⟩

/-- A record emitted at error level. -/
structure LogRecord where
  fields : List (String × LogVal)
  msg : String
deriving DecidableEq, Repr

/-! ## The request context (gin) -/

/-- Values held in the key/value store of a request context: the nil interface, a
collection handle (database and collection name), or a pointer to an account record. -/
inductive Value where
  | nil : Value
  | coll (dbName collName : String) : Value
  | account (a : UserAccount) : Value
deriving DecidableEq, Repr

/-- What a request produces outside the process, in the order of production. -/
inductive Effect where
  | logged (r : LogRecord) : Effect
  | header (status : Nat) : Effect
  | body (j : Json) : Effect

/-- The state of a `*gin.Context`: the request (method, path parameters, body), the
key/value store, the abort flag (`index ≥ abortIndex`), the errors attached to the context,
the response writer (header fields, status and whether the header is written) and the
effects so far. -/
structure Context where
  method : String
  params : List (String × String)
  body : Option Json
  keys : List (String × Value)
  aborted : Bool
  errors : List Error
  header : List (String × String)
  status : Nat
  written : Bool
  effects : List Effect

/-- A request as it arrives. -/
structure Request where
  method : String
  params : List (String × String)
  body : Option Json

/-- The context the framework builds for a request: no keys, not aborted, no header
fields, default status 200 and nothing written. -/
def Request.newContext (r : Request) : Context :=
  { method := r.method, params := r.params, body := r.body, keys := [], aborted := false,
    errors := [], header := [], status := StatusOK, written := false, effects := [] }

/-- Method `c.Header(key, value)`: sets a header field of the response, or deletes it when
the value is empty. -/
def Context.Header (c : Context) (key value : String) : Context :=
  if value = "" then { c with header := c.header.filter (fun kv => kv.1 ≠ key) }
  else { c with header := (key, value) :: c.header.filter (fun kv => kv.1 ≠ key) }

/-- The content type is set by a renderer only when the response has none yet. -/
def Context.writeContentType (c : Context) (value : String) : Context :=
  if c.header.any (fun kv => kv.1 = "Content-Type") then c
  else { c with header := c.header ++ [("Content-Type", value)] }

/-- Method `c.Set(key, value)`: binds the key, replacing an earlier binding. -/
def Context.Set (c : Context) (key : String) (v : Value) : Context :=
  { c with keys := (key, v) :: c.keys.filter (fun kv => kv.1 ≠ key) }

/-- Method `c.Get(key)`: the value bound to the key, if any. -/
def Context.Get (c : Context) (key : String) : Option Value :=
  (c.keys.find? (fun kv => kv.1 = key)).map Prod.snd

/-- Method `c.Abort()`. -/
def Context.Abort (c : Context) : Context := { c with aborted := true }

/-- Method `c.Status(code)`: sets the pending status unless the header is already out. -/
def Context.Status (c : Context) (code : Nat) : Context :=
  if 0 < code ∧ c.status ≠ code then
    if c.written then c else { c with status := code }
  else c

/-- Writer method `WriteHeaderNow()`: sends the header once. -/
def Context.WriteHeaderNow (c : Context) : Context :=
  if c.written then c
  else { c with written := true, effects := c.effects ++ [Effect.header c.status] }

/-- Writer method `Write`, for a rendered JSON value: the header goes out first. -/
def Context.Write (c : Context) (j : Json) : Context :=
  let c1 := c.WriteHeaderNow
  { c1 with effects := c1.effects ++ [Effect.body j] }

/-- Statuses that may carry a body. -/
def bodyAllowedForStatus (status : Nat) : Bool :=
  if 100 ≤ status ∧ status ≤ 199 then false
  else if status = 204 then false
  else if status = 304 then false
  else true

/-- Method `c.JSON(code, obj)`. -/
def Context.JSON (c : Context) (code : Nat) (obj : Json) : Context :=
  let c1 := (c.Status code).writeContentType "application/json; charset=utf-8"
  if bodyAllowedForStatus code then c1.Write obj else c1.WriteHeaderNow

/-- Method `c.AbortWithStatus(code)`. -/
def Context.AbortWithStatus (c : Context) (code : Nat) : Context :=
  ((c.Status code).WriteHeaderNow).Abort

/-- Method `c.AbortWithStatusJSON(code, obj)`. -/
def Context.AbortWithStatusJSON (c : Context) (code : Nat) (obj : Json) : Context :=
  (c.Abort).JSON code obj

/-- Method `c.AbortWithError(code, err)`. -/
def Context.AbortWithError (c : Context) (code : Nat) (err : Error) : Context :=
  let c1 := c.AbortWithStatus code
  { c1 with errors := c1.errors ++ [err] }

/-- Method `c.BindJSON(payload)` with `payload` pointing at the record `a`: decodes the
body into it; on failure the request is aborted with status 400. -/
def Context.BindJSON (c : Context) (a : UserAccount) : Except Error UserAccount × Context :=
  match c.body with
  | none => (.error "invalid request", c.AbortWithError StatusBadRequest "invalid request")
  | some j =>
    match decodeInto a j with
    | .ok a1 => (.ok a1, c)
    | .error e => (.error e, c.AbortWithError StatusBadRequest e)

/-- Emission of a record at error level (`le.Error(msg)`). -/
def Context.logError (c : Context) (le : Entry) (msg : String) : Context :=
  { c with effects := c.effects ++ [Effect.logged ⟨le.fields, msg⟩] }

/-- The bodies written to the response so far. -/
def Context.respBody (c : Context) : List Json :=
  c.effects.filterMap (fun e => match e with | .body j => some j | _ => none)

/-! ## Validators and store operations

These functions are called by the handlers and defined in another file of the repository.
`nil` (no error) is `none`. -/

/-- Modelled from the spec: `ValidateForCreate` is defined outside `routes.go`; it fails if
email is empty, phone is empty, or title is empty, and succeeds otherwise. -/
def ValidateForCreate (acc : UserAccount) : Option Error :=
  if acc.GetEmail = "" ∨ acc.GetPhone = "" ∨ acc.GetTitle = "" then
    some "invalid account: email, phone and title are required"
  else none

/-- Modelled from the spec: `ValidateForUpdate` is defined outside `routes.go`; the same
non-empty checks as for creation, excluding email. -/
def ValidateForUpdate (acc : UserAccount) : Option Error :=
  if acc.GetPhone = "" ∨ acc.GetTitle = "" then
    some "invalid account: phone and title are required"
  else none

/-- Modelled from the spec: `CheckDuplicate` is defined outside `routes.go`; a read-only
query that signals (with an error) a stored record whose email or phone matches. -/
def CheckDuplicate (acc : UserAccount) (coll : Collection) : Option Error :=
  if coll.docs.any (fun d => d.email = acc.GetEmail || d.phone = acc.GetPhone) then
    some "duplicate account"
  else none

/-- Modelled from the spec: `CheckExists` is defined outside `routes.go`; a read-only query
for a record with the email of the account, with an error when there is none. -/
def CheckExists (acc : UserAccount) (coll : Collection) : Option Error :=
  if coll.docs.any (fun d => d.email = acc.GetEmail) then none
  else some "account not found"

/-- Modelled from the spec: `CreateNewAccount` is defined outside `routes.go`; one insert
command, which either fails with the error of the store or appends the record under a
freshly generated identifier. -/
def CreateNewAccount (acc : UserAccount) (coll : Collection) : Option Error × Collection :=
  match coll.insertErr with
  | some e => (some e, { coll with writes := coll.writes + 1 })
  | none =>
    (none, { coll with
      docs := coll.docs ++ [⟨coll.nextID, acc.GetEmail, acc.GetPhone, acc.GetTitle⟩],
      nextID := coll.nextID + 1,
      writes := coll.writes + 1 })

/-! ## routes.go -/

/-- A handler acts on the request context and on the collection behind the handle bound
in it; `none` is a panic. -/
abbrev HandlerFunc := Context → Collection → Option (Context × Collection)

/-- The handler chain of the framework (`c.Next()`): the handlers run in order until one of
them aborts the request. -/
def Next : List HandlerFunc → HandlerFunc
  | [], c, coll => some (c, coll)
  | h :: hs, c, coll =>
    if c.aborted then some (c, coll)
    else
      match h c coll with
      | none => none
      | some (c1, coll1) => Next hs c1 coll1

/-- Middleware `CORS`: enables all cross origin requests for all verbs except `OPTIONS`,
which is answered with 200 at once. For the other verbs the handler ends with `c.Next()`,
that is, the chain goes on. -/
def CORS : HandlerFunc := fun c coll =>
  let c1 := (((c.Header "Access-Control-Allow-Origin" "*").Header
    "Access-Control-Allow-Methods" "*").Header "Access-Control-Allow-Headers" "*").Header
    "Content-Type" "application/json"
  if c1.method ≠ "OPTIONS" then some (c1, coll)
  else some (c1.AbortWithStatus StatusOK, coll)

/-- Middleware `DBCollection`: binds the handle of the named collection of the client
under the key `coll`. -/
def DBCollection (dbName collName : String) : HandlerFunc :=
  fun c coll => some (c.Set "coll" (Value.coll dbName collName), coll)

/-- Middleware `AccountPayload`: deserializes the account payload of the request. -/
def AccountPayload (c : Context) : Context :=
  if c.method = "POST" ∨ c.method = "PATCH" ∨ c.method = "PUT" then
    match c.BindJSON ⟨"", "", ""⟩ with
    | (.error _, c1) =>
      (c1.logError (WithFields [("payload", LogVal.str "debug your payload here")])
        "AccountPayload:failed to bind account payload").AbortWithStatusJSON StatusBadRequest (H [])
    | (.ok payload, c1) => c1.Set "account" (Value.account payload)
  else c

/-- Function `ThrowErr`: logs the error, then packs the context with the response code. -/
def ThrowErr (e : Error) (le : Entry) (code : Nat) (c : Context) : Context :=
  let c1 := c.logError le e
  if code = StatusBadRequest then
    c1.AbortWithStatusJSON code
      (H [("err", Json.str "One or more inputs is nil/invalid/duplicate, check and send again")])
  else if code = StatusInternalServerError then
    c1.AbortWithStatusJSON code
      (H [("err", Json.str "One or more operations on the server has failed, please try after sometime")])
  else if code = StatusNotFound then
    c1.AbortWithStatusJSON code
      (H [("err", Json.str "One or ore resources you were looking for was not found")])
  else c1

/-- The body of the `POST` branch of `Accounts` once the value under `account` is known to
be an account. -/
def postAccount (acc : UserAccount) (c : Context) (coll : Collection) : Context × Collection :=
  match ValidateForCreate acc with
  | some _ =>
    (ThrowErr "Accounts: Invalid account details"
      (WithFields [("email", LogVal.str acc.GetEmail), ("phone", LogVal.str acc.GetPhone),
        ("title", LogVal.str acc.GetTitle)]) StatusBadRequest c, coll)
  | none =>
    match CheckDuplicate acc coll with
    | some _ =>
      (ThrowErr "Accounts: Duplicate accounts detected"
        (WithFields [("email", LogVal.str acc.GetEmail), ("phone", LogVal.str acc.GetPhone)])
        StatusBadRequest c, coll)
    | none =>
      match CreateNewAccount acc coll with
      | (some err, coll1) =>
        (ThrowErr ("Accounts: Failed query to create accounts " ++ err) (WithFields [])
          StatusInternalServerError c, coll1)
      | (none, coll1) => (c.AbortWithStatus StatusCreated, coll1)

/-- Handler `Accounts`: CRUD on the collection of accounts; handles posting of new accounts.
A value under `coll` that is not a collection makes the type assertion panic; a non-nil
value under `account` that is not an account leaves `acc` the nil interface, whose first
method call panics. -/
def Accounts : HandlerFunc := fun c coll =>
  match c.Get "coll" with
  | some (Value.coll _ _) =>
    if c.method = "POST" then
      match c.Get "account" with
      | none =>
        some (ThrowErr "Accounts: invalid account in payload, cannot be nil"
          (WithFields [("payload", LogVal.nil)]) StatusBadRequest c, coll)
      | some Value.nil =>
        some (ThrowErr "Accounts: invalid account in payload, cannot be nil"
          (WithFields [("payload", LogVal.nil)]) StatusBadRequest c, coll)
      | some (Value.account acc) => some (postAccount acc c coll)
      | some (Value.coll _ _) => none
    else some (c, coll)
  | _ => none

/-- The body of the `PUT` branch of `AccountDetails` once the value under `account` is
known to be an account. -/
def putAccount (acc : UserAccount) (c : Context) (coll : Collection) : Context × Collection :=
  match ValidateForUpdate acc with
  | some _ => (c.AbortWithStatus StatusBadRequest, coll)
  | none =>
    match CheckExists acc coll with
    | some _ =>
      (ThrowErr "Accounts: No account found" (WithFields [("email", LogVal.str acc.GetEmail)])
        StatusNotFound c, coll)
    | none => (c, coll)

/-- Handler `AccountDetails`: getting, modifying single account details. The two type
assertions behave as in `Accounts`. -/
def AccountDetails : HandlerFunc := fun c coll =>
  match c.Get "coll" with
  | some (Value.coll _ _) =>
    if c.method = "PUT" then
      match c.Get "account" with
      | none =>
        some (ThrowErr "Accounts: invalid account in payload, cannot be nil"
          (WithFields [("payload", LogVal.nil)]) StatusBadRequest c, coll)
      | some Value.nil =>
        some (ThrowErr "Accounts: invalid account in payload, cannot be nil"
          (WithFields [("payload", LogVal.nil)]) StatusBadRequest c, coll)
      | some (Value.account acc) => some (putAccount acc c coll)
      | some (Value.coll _ _) => none
    else some (c, coll)
  | _ => none

/-- Modelled from the spec: the wiring of the routes is done outside `routes.go`; a request
passes the CORS middleware, the collection binding, the payload parser and then the
handler of its route. -/
def serve (handler : HandlerFunc) (r : Request) (coll : Collection) :
    Option (Context × Collection) :=
  Next [CORS, DBCollection "eensydb" "accounts", fun c s => some (AccountPayload c, s), handler]
    r.newContext coll

/-- The category-level message of the error responder for a status: bad request, internal
error, not found. -/
def categoryMessage (code : Nat) : String :=
  if code = 400 then "One or more inputs is nil/invalid/duplicate, check and send again"
  else if code = 500 then "One or more operations on the server has failed, please try after sometime"
  else if code = 404 then "One or ore resources you were looking for was not found"
  else ""

/-! ## Sample requests and stores -/

/-- The sample account of the payload test. -/
def sampleAcc : UserAccount := ⟨"john.dore@gmail.com", "8980982093", "John Dore"⟩

/-- An empty collection whose server accepts inserts. -/
def emptyColl : Collection := ⟨[], 0, 0, none⟩

/-- A collection holding the sample account under identifier 0. -/
def johnColl : Collection :=
  ⟨[⟨0, "john.dore@gmail.com", "8980982093", "John Dore"⟩], 1, 1, none⟩

/-- An empty collection whose server refuses inserts. -/
def downColl : Collection := ⟨[], 0, 0, some "server selection error"⟩

/-- A fresh context for a request with the collection handle bound. -/
def boundContext (r : Request) : Context :=
  (r.newContext).Set "coll" (Value.coll "eensydb" "accounts")

/-- A `POST` of the sample account, after the payload middleware. -/
def postJohn : Context :=
  AccountPayload (boundContext ⟨"POST", [], some sampleAcc.toJson⟩)

/-- A `POST` of a record without a title, after the payload middleware. -/
def postUntitled : Context :=
  AccountPayload (boundContext ⟨"POST", [], some (UserAccount.toJson ⟨"a@b.c", "1", ""⟩)⟩)

/-- A `POST` whose body is not JSON, before the payload middleware. -/
def postGarbage : Context := boundContext ⟨"POST", [], none⟩

/-- A `POST` that reaches the handler with the nil value stored under `account`. -/
def postNoAccount : Context :=
  (boundContext ⟨"POST", [], none⟩).Set "account" Value.nil

/-- A `PUT` for the sample account with a new title and phone, after the payload
middleware. -/
def putJohn : Context :=
  AccountPayload (boundContext ⟨"PUT", [("id", "0")],
    some (UserAccount.toJson ⟨"john.dore@gmail.com", "8390906860", "testPutTitle"⟩)⟩)

/-- A `PUT` whose payload has no title, after the payload middleware. -/
def putUntitled : Context :=
  AccountPayload (boundContext ⟨"PUT", [("id", "0")],
    some (UserAccount.toJson ⟨"john.dore@gmail.com", "8390906860", ""⟩)⟩)

/-- A `GET` for an identifier, with the collection handle bound. -/
def getById (id : String) : Context := boundContext ⟨"GET", [("id", id)], none⟩

/-! ## Lemmas on the request context -/

/-- Once a request is aborted the chain runs no further handler. -/
theorem Next_of_aborted (hs : List HandlerFunc) (c : Context) (coll : Collection)
    (h : c.aborted = true) : Next hs c coll = some (c, coll) := by
  cases hs <;> simp [Next, h]

/-- The value read back after `Set` under the same key. -/
theorem Get_Set_same (c : Context) (key : String) (v : Value) :
    (c.Set key v).Get key = some v := by
  simp [Context.Set, Context.Get]

/-- The context after `AbortWithStatusJSON`, for a status that carries a body, when the
header is not out yet. -/
theorem AbortWithStatusJSON_fresh (c : Context) (code : Nat) (obj : Json)
    (hpos : 0 < code) (hb : bodyAllowedForStatus code = true) (hw : c.written = false) :
    c.AbortWithStatusJSON code obj =
      { c with aborted := true, status := code, written := true,
               header := (c.writeContentType "application/json; charset=utf-8").header,
               effects := c.effects ++ [Effect.header code, Effect.body obj] } := by
  by_cases hs : c.status = code
  · subst hs
    by_cases hh : c.header.any (fun kv => kv.1 = "Content-Type") <;>
    simp [Context.AbortWithStatusJSON, Context.JSON, Context.Status, Context.Abort,
      Context.Write, Context.WriteHeaderNow, Context.writeContentType, hb, hw, hh]
  · by_cases hh : c.header.any (fun kv => kv.1 = "Content-Type") <;>
    simp [Context.AbortWithStatusJSON, Context.JSON, Context.Status, Context.Abort,
      Context.Write, Context.WriteHeaderNow, Context.writeContentType, hb, hw, hs, hpos, hh]

/-- The context after `AbortWithStatus` when the header is not out yet. -/
theorem AbortWithStatus_fresh (c : Context) (code : Nat) (hpos : 0 < code)
    (hw : c.written = false) :
    c.AbortWithStatus code =
      { c with aborted := true, status := code, written := true,
               effects := c.effects ++ [Effect.header code] } := by
  by_cases hs : c.status = code
  · subst hs
    simp [Context.AbortWithStatus, Context.Status, Context.Abort, Context.WriteHeaderNow, hw]
  · simp [Context.AbortWithStatus, Context.Status, Context.Abort, Context.WriteHeaderNow, hw,
      hs, hpos]

/-- The context after `ThrowErr` with one of the three mapped codes, when the header is not
out yet: the log record, then the header, then the body with the category message. -/
theorem ThrowErr_fresh (e : Error) (le : Entry) (code : Nat) (c : Context)
    (hcode : code = 400 ∨ code = 500 ∨ code = 404) (hw : c.written = false) :
    ThrowErr e le code c =
      { c with aborted := true, status := code, written := true,
               header := (c.writeContentType "application/json; charset=utf-8").header,
               effects := c.effects ++ [Effect.logged ⟨le.fields, e⟩, Effect.header code,
                 Effect.body (H [("err", Json.str (categoryMessage code))])] } := by
  have hlog : (c.logError le e).written = false := by simp [Context.logError, hw]
  rcases hcode with rfl | rfl | rfl <;>
  · simp only [ThrowErr, StatusBadRequest, StatusInternalServerError, StatusNotFound]
    simp only [Nat.reduceEqDiff, if_true, if_false]
    rw [AbortWithStatusJSON_fresh _ _ _ (by decide) (by decide) hlog]
    simp only [Context.logError, categoryMessage, Context.writeContentType]
    split <;> simp

/-- The bodies of the response after `ThrowErr` with a mapped code. -/
theorem ThrowErr_respBody (e : Error) (le : Entry) (code : Nat) (c : Context)
    (hcode : code = 400 ∨ code = 500 ∨ code = 404) (hw : c.written = false) :
    (ThrowErr e le code c).respBody =
      c.respBody ++ [H [("err", Json.str (categoryMessage code))]] := by
  rw [ThrowErr_fresh e le code c hcode hw]
  simp [Context.respBody, List.filterMap_append]

/-! ## The error responder -/

/-- C6: for every error, log entry and code among 400, 500 and 404, `ThrowErr` on a context
whose header is not out yet appends, in this order, the log record of the error with the
fields of the entry, the header with exactly that status, and the body with the single
member `err` holding the message of the code; the message depends on the code alone and
the three messages are pairwise distinct; afterwards the request is aborted and the chain
runs no further handler. -/
theorem ThrowErr_logs_then_aborts (e : Error) (le : Entry) (code : Nat) (c : Context)
    (hcode : code = 400 ∨ code = 500 ∨ code = 404) (hw : c.written = false) :
    (ThrowErr e le code c).effects =
        c.effects ++ [Effect.logged ⟨le.fields, e⟩, Effect.header code,
          Effect.body (H [("err", Json.str (categoryMessage code))])]
      ∧ (ThrowErr e le code c).status = code
      ∧ (ThrowErr e le code c).aborted = true
      ∧ (∀ (hs : List HandlerFunc) (coll : Collection),
          Next hs (ThrowErr e le code c) coll = some (ThrowErr e le code c, coll))
      ∧ categoryMessage 400 ≠ categoryMessage 500
      ∧ categoryMessage 400 ≠ categoryMessage 404
      ∧ categoryMessage 500 ≠ categoryMessage 404 := by
  have h := ThrowErr_fresh e le code c hcode hw
  refine ⟨by rw [h], by rw [h], by rw [h], ?_, by decide, by decide, by decide⟩
  intro hs coll
  exact Next_of_aborted hs _ coll (by rw [h])

/-- Witness for C6: a not-found error thrown on the fresh context of a `GET`. -/
theorem ThrowErr_logs_then_aborts_witness :
    (ThrowErr "Accounts: No account found" (WithFields [("email", LogVal.str "a@b.c")]) 404
        (getById "7")).effects =
      [Effect.logged ⟨[("email", LogVal.str "a@b.c")], "Accounts: No account found"⟩,
        Effect.header 404,
        Effect.body (H [("err", Json.str "One or ore resources you were looking for was not found")])]
    ∧ (ThrowErr "Accounts: No account found" (WithFields [("email", LogVal.str "a@b.c")]) 404
        (getById "7")).status = 404 :=
  ⟨(ThrowErr_logs_then_aborts "Accounts: No account found"
      (WithFields [("email", LogVal.str "a@b.c")]) 404 (getById "7")
      (Or.inr (Or.inr rfl)) rfl).1,
   (ThrowErr_logs_then_aborts "Accounts: No account found"
      (WithFields [("email", LogVal.str "a@b.c")]) 404 (getById "7")
      (Or.inr (Or.inr rfl)) rfl).2.1⟩

/-! ## The create handler -/

/-- The result of `Accounts` on a `POST` with a collection bound and an account stored. -/
theorem Accounts_post_account (c : Context) (coll : Collection) (db cn : String)
    (acc : UserAccount) (hm : c.method = "POST")
    (hcoll : c.Get "coll" = some (Value.coll db cn))
    (hacc : c.Get "account" = some (Value.account acc)) :
    Accounts c coll = some (postAccount acc c coll) := by
  simp [Accounts, hm, hcoll, hacc]

/-- The result of `Accounts` on a `POST` with a collection bound and no account stored. -/
theorem Accounts_post_absent (c : Context) (coll : Collection) (db cn : String)
    (hm : c.method = "POST") (hcoll : c.Get "coll" = some (Value.coll db cn))
    (hacc : c.Get "account" = none ∨ c.Get "account" = some Value.nil) :
    Accounts c coll =
      some (ThrowErr "Accounts: invalid account in payload, cannot be nil"
        (WithFields [("payload", LogVal.nil)]) StatusBadRequest c, coll) := by
  rcases hacc with hacc | hacc <;> simp [Accounts, hm, hcoll, hacc]

/-- The four outcomes of the `POST` branch on a context whose header is not out yet: the
status, the abort flag, the bodies written and the collection afterwards. -/
theorem postAccount_outcome (acc : UserAccount) (c : Context) (coll : Collection)
    (hw : c.written = false) :
    (postAccount acc c coll).1.aborted = true ∧
    ((ValidateForCreate acc ≠ none ∧ (postAccount acc c coll).1.status = 400 ∧
        (postAccount acc c coll).2 = coll ∧
        (postAccount acc c coll).1.respBody =
          c.respBody ++ [H [("err", Json.str (categoryMessage 400))]]) ∨
     (ValidateForCreate acc = none ∧ CheckDuplicate acc coll ≠ none ∧
        (postAccount acc c coll).1.status = 400 ∧ (postAccount acc c coll).2 = coll ∧
        (postAccount acc c coll).1.respBody =
          c.respBody ++ [H [("err", Json.str (categoryMessage 400))]]) ∨
     (ValidateForCreate acc = none ∧ CheckDuplicate acc coll = none ∧
        (CreateNewAccount acc coll).1 ≠ none ∧ (postAccount acc c coll).1.status = 500 ∧
        (postAccount acc c coll).2 = (CreateNewAccount acc coll).2 ∧
        (postAccount acc c coll).1.respBody =
          c.respBody ++ [H [("err", Json.str (categoryMessage 500))]]) ∨
     (ValidateForCreate acc = none ∧ CheckDuplicate acc coll = none ∧
        (CreateNewAccount acc coll).1 = none ∧ (postAccount acc c coll).1.status = 201 ∧
        (postAccount acc c coll).2 = (CreateNewAccount acc coll).2 ∧
        (postAccount acc c coll).1.respBody = c.respBody)) := by
  unfold postAccount
  cases hv : ValidateForCreate acc with
  | some e =>
    simp only [StatusBadRequest]
    rw [ThrowErr_respBody _ _ 400 c (Or.inl rfl) hw, ThrowErr_fresh _ _ 400 c (Or.inl rfl) hw]
    simp
  | none =>
    cases hd : CheckDuplicate acc coll with
    | some e =>
      simp only [StatusBadRequest]
      rw [ThrowErr_respBody _ _ 400 c (Or.inl rfl) hw, ThrowErr_fresh _ _ 400 c (Or.inl rfl) hw]
      simp
    | none =>
      rcases hc : CreateNewAccount acc coll with ⟨r, coll1⟩
      cases r with
      | some err =>
        simp only [StatusInternalServerError]
        rw [ThrowErr_respBody _ _ 500 c (Or.inr (Or.inl rfl)) hw,
          ThrowErr_fresh _ _ 500 c (Or.inr (Or.inl rfl)) hw]
        simp
      | none =>
        simp only [StatusCreated]
        rw [AbortWithStatus_fresh c 201 (by decide) hw]
        simp [Context.respBody, List.filterMap_append]

/-- C1: for every `POST` request handled by `Accounts` with a collection bound in the
context (and the header not out yet), the handler returns and the status is decided by
the first failing step: 400 if no non-nil value is stored under `account`; for a stored
account, 400 if `ValidateForCreate` returns an error, else 400 if `CheckDuplicate` reports a
match, else 500 if `CreateNewAccount` returns an error, else 201. In every case the request
is aborted and the chain runs no further handler. -/
theorem Accounts_post_status (c : Context) (coll : Collection) (db cn : String)
    (hm : c.method = "POST") (hcoll : c.Get "coll" = some (Value.coll db cn))
    (hw : c.written = false) :
    ((c.Get "account" = none ∨ c.Get "account" = some Value.nil) →
      ∃ c1 coll1, Accounts c coll = some (c1, coll1) ∧ c1.status = 400 ∧ c1.aborted = true ∧
        ∀ hs : List HandlerFunc, Next hs c1 coll1 = some (c1, coll1)) ∧
    (∀ acc : UserAccount, c.Get "account" = some (Value.account acc) →
      ∃ c1 coll1, Accounts c coll = some (c1, coll1) ∧ c1.aborted = true ∧
        (∀ hs : List HandlerFunc, Next hs c1 coll1 = some (c1, coll1)) ∧
        (ValidateForCreate acc ≠ none → c1.status = 400) ∧
        (ValidateForCreate acc = none → CheckDuplicate acc coll ≠ none → c1.status = 400) ∧
        (ValidateForCreate acc = none → CheckDuplicate acc coll = none →
          (CreateNewAccount acc coll).1 ≠ none → c1.status = 500) ∧
        (ValidateForCreate acc = none → CheckDuplicate acc coll = none →
          (CreateNewAccount acc coll).1 = none → c1.status = 201)) := by
  constructor
  · intro hacc
    refine ⟨_, _, Accounts_post_absent c coll db cn hm hcoll hacc, ?_, ?_, ?_⟩
    · rw [StatusBadRequest, ThrowErr_fresh _ _ 400 c (Or.inl rfl) hw]
    · rw [StatusBadRequest, ThrowErr_fresh _ _ 400 c (Or.inl rfl) hw]
    · intro hs
      exact Next_of_aborted hs _ _ (by rw [StatusBadRequest, ThrowErr_fresh _ _ 400 c (Or.inl rfl) hw])
  · intro acc hacc
    obtain ⟨hab, hout⟩ := postAccount_outcome acc c coll hw
    refine ⟨(postAccount acc c coll).1, (postAccount acc c coll).2,
      Accounts_post_account c coll db cn acc hm hcoll hacc, hab,
      fun hs => Next_of_aborted hs _ _ hab, ?_, ?_, ?_, ?_⟩
    · intro h1
      rcases hout with h | h | h | h
      · exact h.2.1
      · exact absurd h.1 h1
      · exact absurd h.1 h1
      · exact absurd h.1 h1
    · intro h1 h2
      rcases hout with h | h | h | h
      · exact absurd h1 h.1
      · exact h.2.2.1
      · exact absurd h.2.1 h2
      · exact absurd h.2.1 h2
    · intro h1 h2 h3
      rcases hout with h | h | h | h
      · exact absurd h1 h.1
      · exact absurd h2 h.2.1
      · exact h.2.2.2.1
      · exact absurd h.2.2.1 h3
    · intro h1 h2 h3
      rcases hout with h | h | h | h
      · exact absurd h1 h.1
      · exact absurd h2 h.2.1
      · exact absurd h3 h.2.2.1
      · exact h.2.2.2.1

/-- Witness for C1: the five outcomes on concrete requests: the nil value under `account`,
a record without title, the sample account against a collection that holds it, against
a collection whose server refuses the insert, and against an empty collection. -/
theorem Accounts_post_status_witness :
    (∃ c1 coll1, Accounts postNoAccount emptyColl = some (c1, coll1) ∧ c1.status = 400) ∧
    (∃ c1 coll1, Accounts postUntitled emptyColl = some (c1, coll1) ∧ c1.status = 400) ∧
    (∃ c1 coll1, Accounts postJohn johnColl = some (c1, coll1) ∧ c1.status = 400) ∧
    (∃ c1 coll1, Accounts postJohn downColl = some (c1, coll1) ∧ c1.status = 500) ∧
    (∃ c1 coll1, Accounts postJohn emptyColl = some (c1, coll1) ∧ c1.status = 201 ∧
      c1.aborted = true) := by
  refine ⟨?_, ?_, ?_, ?_, ?_⟩
  · obtain ⟨c1, coll1, h, h400, _⟩ :=
      (Accounts_post_status postNoAccount emptyColl "eensydb" "accounts" rfl rfl rfl).1
        (Or.inr rfl)
    exact ⟨c1, coll1, h, h400⟩
  · obtain ⟨c1, coll1, h, _, _, h400, _⟩ :=
      (Accounts_post_status postUntitled emptyColl "eensydb" "accounts" rfl rfl rfl).2
        ⟨"a@b.c", "1", ""⟩ rfl
    exact ⟨c1, coll1, h, h400 (by decide)⟩
  · obtain ⟨c1, coll1, h, _, _, _, h400, _⟩ :=
      (Accounts_post_status postJohn johnColl "eensydb" "accounts" rfl rfl rfl).2 sampleAcc rfl
    exact ⟨c1, coll1, h, h400 rfl (by decide)⟩
  · obtain ⟨c1, coll1, h, _, _, _, _, h500, _⟩ :=
      (Accounts_post_status postJohn downColl "eensydb" "accounts" rfl rfl rfl).2 sampleAcc rfl
    exact ⟨c1, coll1, h, h500 rfl rfl (by decide)⟩
  · obtain ⟨c1, coll1, h, hab, _, _, _, _, h201⟩ :=
      (Accounts_post_status postJohn emptyColl "eensydb" "accounts" rfl rfl rfl).2 sampleAcc rfl
    exact ⟨c1, coll1, h, h201 rfl rfl rfl, hab⟩

/-! ## The update handler -/

/-- The result of `AccountDetails` on a `PUT` with a collection bound and an account
stored. -/
theorem AccountDetails_put_account (c : Context) (coll : Collection) (db cn : String)
    (acc : UserAccount) (hm : c.method = "PUT")
    (hcoll : c.Get "coll" = some (Value.coll db cn))
    (hacc : c.Get "account" = some (Value.account acc)) :
    AccountDetails c coll = some (putAccount acc c coll) := by
  simp [AccountDetails, hm, hcoll, hacc]

/-- The result of `AccountDetails` on a `PUT` with a collection bound and no account
stored. -/
theorem AccountDetails_put_absent (c : Context) (coll : Collection) (db cn : String)
    (hm : c.method = "PUT") (hcoll : c.Get "coll" = some (Value.coll db cn))
    (hacc : c.Get "account" = none ∨ c.Get "account" = some Value.nil) :
    AccountDetails c coll =
      some (ThrowErr "Accounts: invalid account in payload, cannot be nil"
        (WithFields [("payload", LogVal.nil)]) StatusBadRequest c, coll) := by
  rcases hacc with hacc | hacc <;> simp [AccountDetails, hm, hcoll, hacc]

/-- The `PUT` branch never touches the collection. -/
theorem putAccount_store (acc : UserAccount) (c : Context) (coll : Collection) :
    (putAccount acc c coll).2 = coll := by
  unfold putAccount
  cases ValidateForUpdate acc <;> cases CheckExists acc coll <;> rfl

/-- The outcomes of the `PUT` branch on a context whose header is not out yet. -/
theorem putAccount_outcome (acc : UserAccount) (c : Context) (coll : Collection)
    (hw : c.written = false) :
    (ValidateForUpdate acc ≠ none ∧ (putAccount acc c coll).1.status = 400 ∧
        (putAccount acc c coll).1.aborted = true ∧
        (putAccount acc c coll).1.respBody = c.respBody) ∨
    (ValidateForUpdate acc = none ∧ CheckExists acc coll ≠ none ∧
        (putAccount acc c coll).1.status = 404 ∧ (putAccount acc c coll).1.aborted = true ∧
        (putAccount acc c coll).1.respBody =
          c.respBody ++ [H [("err", Json.str (categoryMessage 404))]]) ∨
    (ValidateForUpdate acc = none ∧ CheckExists acc coll = none ∧
        (putAccount acc c coll).1 = c) := by
  unfold putAccount
  cases hv : ValidateForUpdate acc with
  | some e =>
    simp only [StatusBadRequest]
    rw [AbortWithStatus_fresh c 400 (by decide) hw]
    simp [Context.respBody, List.filterMap_append]
  | none =>
    cases hx : CheckExists acc coll with
    | some e =>
      simp only [StatusNotFound]
      rw [ThrowErr_respBody _ _ 404 c (Or.inr (Or.inr rfl)) hw,
        ThrowErr_fresh _ _ 404 c (Or.inr (Or.inr rfl)) hw]
      simp
    | none => simp

/-- C3: for every `PUT` request handled by `AccountDetails` with a collection bound in the
context (and the header not out yet): if no non-nil value is stored under `account` the
response is 400 and the request is aborted; for a stored account, if `ValidateForUpdate`
returns an error the response is 400 and the request is aborted; otherwise if `CheckExists`
reports that the account is not found the response is 404 and the request is aborted. -/
theorem AccountDetails_put_errors (c : Context) (coll : Collection) (db cn : String)
    (hm : c.method = "PUT") (hcoll : c.Get "coll" = some (Value.coll db cn))
    (hw : c.written = false) :
    ((c.Get "account" = none ∨ c.Get "account" = some Value.nil) →
      ∃ c1 coll1, AccountDetails c coll = some (c1, coll1) ∧ c1.status = 400 ∧
        c1.aborted = true ∧ ∀ hs : List HandlerFunc, Next hs c1 coll1 = some (c1, coll1)) ∧
    (∀ acc : UserAccount, c.Get "account" = some (Value.account acc) →
      ∃ c1 coll1, AccountDetails c coll = some (c1, coll1) ∧
        (ValidateForUpdate acc ≠ none → c1.status = 400 ∧ c1.aborted = true ∧
          ∀ hs : List HandlerFunc, Next hs c1 coll1 = some (c1, coll1)) ∧
        (ValidateForUpdate acc = none → CheckExists acc coll ≠ none →
          c1.status = 404 ∧ c1.aborted = true ∧
          ∀ hs : List HandlerFunc, Next hs c1 coll1 = some (c1, coll1))) := by
  constructor
  · intro hacc
    refine ⟨_, _, AccountDetails_put_absent c coll db cn hm hcoll hacc, ?_, ?_, ?_⟩
    · rw [StatusBadRequest, ThrowErr_fresh _ _ 400 c (Or.inl rfl) hw]
    · rw [StatusBadRequest, ThrowErr_fresh _ _ 400 c (Or.inl rfl) hw]
    · intro hs
      exact Next_of_aborted hs _ _ (by rw [StatusBadRequest, ThrowErr_fresh _ _ 400 c (Or.inl rfl) hw])
  · intro acc hacc
    refine ⟨(putAccount acc c coll).1, (putAccount acc c coll).2,
      AccountDetails_put_account c coll db cn acc hm hcoll hacc, ?_, ?_⟩
    · intro h1
      rcases putAccount_outcome acc c coll hw with h | h | h
      · exact ⟨h.2.1, h.2.2.1, fun hs => Next_of_aborted hs _ _ h.2.2.1⟩
      · exact absurd h.1 h1
      · exact absurd h.1 h1
    · intro h1 h2
      rcases putAccount_outcome acc c coll hw with h | h | h
      · exact absurd h1 h.1
      · exact ⟨h.2.2.1, h.2.2.2.1, fun hs => Next_of_aborted hs _ _ h.2.2.2.1⟩
      · exact absurd h.2.1 h2

/-- Witness for C3: a `PUT` without a title is answered with 400, and a `PUT` for the
sample account against an empty collection with 404. -/
theorem AccountDetails_put_errors_witness :
    (∃ c1 coll1, AccountDetails putUntitled johnColl = some (c1, coll1) ∧ c1.status = 400 ∧
      c1.aborted = true) ∧
    (∃ c1 coll1, AccountDetails putJohn emptyColl = some (c1, coll1) ∧ c1.status = 404 ∧
      c1.aborted = true) := by
  constructor
  · obtain ⟨c1, coll1, h, h400, _⟩ :=
      (AccountDetails_put_errors putUntitled johnColl "eensydb" "accounts" rfl rfl rfl).2
        ⟨"john.dore@gmail.com", "8390906860", ""⟩ rfl
    exact ⟨c1, coll1, h, (h400 (by decide)).1, (h400 (by decide)).2.1⟩
  · obtain ⟨c1, coll1, h, _, h404⟩ :=
      (AccountDetails_put_errors putJohn emptyColl "eensydb" "accounts" rfl rfl rfl).2
        ⟨"john.dore@gmail.com", "8390906860", "testPutTitle"⟩ rfl
    exact ⟨c1, coll1, h, (h404 rfl (by decide)).1, (h404 rfl (by decide)).2.1⟩

/-! ## The payload parser -/

/-- The context after `AccountPayload` when the body does not decode: the binding aborts
with 400 and sends the header, the failure is logged, and the empty object is written. -/
theorem AccountPayload_failure (c : Context)
    (hm : c.method = "POST" ∨ c.method = "PUT" ∨ c.method = "PATCH")
    (hbad : c.body = none ∨
      ∃ j e, c.body = some j ∧ decodeInto ⟨"", "", ""⟩ j = Except.error e)
    (hw : c.written = false) :
    ∃ e : Error, AccountPayload c =
      { c with aborted := true, status := 400, written := true, errors := c.errors ++ [e],
               header := (c.writeContentType "application/json; charset=utf-8").header,
               effects := c.effects ++ [Effect.header 400,
                 Effect.logged ⟨[("payload", LogVal.str "debug your payload here")],
                   "AccountPayload:failed to bind account payload"⟩,
                 Effect.body (H [])] } := by
  have hm1 : c.method = "POST" ∨ c.method = "PATCH" ∨ c.method = "PUT" := by tauto
  have hbind : ∃ e : Error, c.BindJSON ⟨"", "", ""⟩ =
      (Except.error e, c.AbortWithError StatusBadRequest e) := by
    rcases hbad with hb | ⟨j, e, hb, hd⟩
    · exact ⟨"invalid request", by simp [Context.BindJSON, hb]⟩
    · exact ⟨e, by simp [Context.BindJSON, hb, hd]⟩
  obtain ⟨e, he⟩ := hbind
  refine ⟨e, ?_⟩
  unfold AccountPayload
  rw [if_pos hm1, he]
  simp only [Context.AbortWithError, StatusBadRequest]
  rw [AbortWithStatus_fresh c 400 (by decide) hw]
  by_cases hh : c.header.any (fun kv => kv.1 = "Content-Type") <;>
  simp [Context.logError, WithFields, Context.AbortWithStatusJSON, Context.JSON,
    Context.Status, Context.Abort, Context.Write, Context.WriteHeaderNow, bodyAllowedForStatus,
    Context.writeContentType, hh]

/-- The context after `AccountPayload` when the body decodes to a record. -/
theorem AccountPayload_success (c : Context) (j : Json) (p : UserAccount)
    (hm : c.method = "POST" ∨ c.method = "PUT" ∨ c.method = "PATCH")
    (hb : c.body = some j) (hd : decodeInto ⟨"", "", ""⟩ j = Except.ok p) :
    AccountPayload c = c.Set "account" (Value.account p) := by
  have hm1 : c.method = "POST" ∨ c.method = "PATCH" ∨ c.method = "PUT" := by tauto
  unfold AccountPayload
  rw [if_pos hm1]
  simp [Context.BindJSON, hb, hd]

/-- Decoding the encoding of a record gives the record back. -/
theorem decodeInto_toJson (z a : UserAccount) : decodeInto z a.toJson = Except.ok a := by
  simp [decodeInto, UserAccount.toJson, decodeMember, equalFold]

/-- C4: for every request whose method is `POST`, `PUT` or `PATCH` and whose body fails to
deserialize into an account record (it is no JSON value, or its decoding is an error),
`AccountPayload` on a context whose header is not out yet aborts the request with status
400, so that the chain runs no further handler, and leaves the key/value store of the
context as it was: nothing is stored or overwritten under `account`. -/
theorem AccountPayload_bind_failure (c : Context)
    (hm : c.method = "POST" ∨ c.method = "PUT" ∨ c.method = "PATCH")
    (hbad : c.body = none ∨
      ∃ j e, c.body = some j ∧ decodeInto ⟨"", "", ""⟩ j = Except.error e)
    (hw : c.written = false) :
    (AccountPayload c).aborted = true ∧ (AccountPayload c).status = 400 ∧
      (AccountPayload c).keys = c.keys ∧
      (AccountPayload c).Get "account" = c.Get "account" ∧
      ∀ (hs : List HandlerFunc) (coll : Collection),
        Next hs (AccountPayload c) coll = some (AccountPayload c, coll) := by
  obtain ⟨e, he⟩ := AccountPayload_failure c hm hbad hw
  refine ⟨by rw [he], by rw [he], by rw [he], by rw [he]; rfl, ?_⟩
  intro hs coll
  exact Next_of_aborted hs _ coll (by rw [he])

/-- Witness for C4: a `POST` whose body is not JSON, and a `PUT` whose body is a JSON
array, with the handlers `Accounts` and `AccountDetails` downstream. -/
theorem AccountPayload_bind_failure_witness :
    (AccountPayload postGarbage).status = 400 ∧
      (AccountPayload postGarbage).Get "account" = none ∧
      Next [Accounts] (AccountPayload postGarbage) emptyColl =
        some (AccountPayload postGarbage, emptyColl) ∧
      (AccountPayload (boundContext ⟨"PUT", [], some (Json.arr [])⟩)).status = 400 :=
  ⟨(AccountPayload_bind_failure postGarbage (Or.inl rfl) (Or.inl rfl) rfl).2.1,
   (AccountPayload_bind_failure postGarbage (Or.inl rfl) (Or.inl rfl) rfl).2.2.2.1,
   (AccountPayload_bind_failure postGarbage (Or.inl rfl) (Or.inl rfl) rfl).2.2.2.2
      [Accounts] emptyColl,
   (AccountPayload_bind_failure (boundContext ⟨"PUT", [], some (Json.arr [])⟩)
      (Or.inr (Or.inl rfl)) (Or.inr ⟨Json.arr [], _, rfl, rfl⟩) rfl).2.1⟩

/-- C5: for every account record `a`, `AccountPayload` on a `POST`, `PUT` or `PATCH` request
whose body is the JSON encoding of `a` stores under `account` a non-nil account whose
`GetEmail`, `GetPhone` and `GetTitle` are the email, phone and title of `a`, and neither
aborts the request nor writes a response; on a JSON `null` body it stores the empty
record, again without aborting. The empty record is the instance `a = ⟨"", "", ""⟩`. -/
theorem AccountPayload_stores_account (a : UserAccount) (c : Context)
    (hm : c.method = "POST" ∨ c.method = "PUT" ∨ c.method = "PATCH") :
    (c.body = some a.toJson →
      ∃ p : UserAccount, (AccountPayload c).Get "account" = some (Value.account p) ∧
        p.GetEmail = a.Email ∧ p.GetPhone = a.Phone ∧ p.GetTitle = a.Title ∧
        (AccountPayload c).aborted = c.aborted ∧ (AccountPayload c).status = c.status ∧
        (AccountPayload c).effects = c.effects) ∧
    (c.body = some Json.null →
      (AccountPayload c).Get "account" = some (Value.account ⟨"", "", ""⟩) ∧
        (AccountPayload c).aborted = c.aborted ∧ (AccountPayload c).status = c.status ∧
        (AccountPayload c).effects = c.effects) := by
  constructor
  · intro hb
    have h := AccountPayload_success c a.toJson a hm hb (decodeInto_toJson _ a)
    exact ⟨a, by rw [h, Get_Set_same], rfl, rfl, rfl, by rw [h]; rfl, by rw [h]; rfl,
      by rw [h]; rfl⟩
  · intro hb
    have h := AccountPayload_success c Json.null ⟨"", "", ""⟩ hm hb rfl
    exact ⟨by rw [h, Get_Set_same], by rw [h]; rfl, by rw [h]; rfl, by rw [h]; rfl⟩

/-- Witness for C5: the sample account of the payload test, and the empty record. -/
theorem AccountPayload_stores_account_witness :
    (∃ p : UserAccount, postJohn.Get "account" = some (Value.account p) ∧
      p.GetEmail = "john.dore@gmail.com" ∧ p.GetPhone = "8980982093" ∧
      p.GetTitle = "John Dore" ∧ postJohn.aborted = false) ∧
    (∃ p : UserAccount,
      (AccountPayload (boundContext ⟨"POST", [], some (UserAccount.toJson ⟨"", "", ""⟩)⟩)).Get
          "account" = some (Value.account p) ∧ p.GetEmail = "") := by
  obtain ⟨p, h1, h2, h3, h4, h5, _⟩ :=
    (AccountPayload_stores_account sampleAcc
      (boundContext ⟨"POST", [], some sampleAcc.toJson⟩) (Or.inl rfl)).1 rfl
  obtain ⟨q, k1, k2, _⟩ :=
    (AccountPayload_stores_account ⟨"", "", ""⟩
      (boundContext ⟨"POST", [], some (UserAccount.toJson ⟨"", "", ""⟩)⟩) (Or.inl rfl)).1 rfl
  exact ⟨⟨p, h1, h2, h3, h4, h5⟩, ⟨q, k1, k2⟩⟩

/-! ## Client errors and the store -/

/-- The collection after `Accounts` is the one before, unless the `POST` branch ran on a
stored account. -/
theorem Accounts_store_cases (c : Context) (coll : Collection) (c1 : Context)
    (coll1 : Collection) (h : Accounts c coll = some (c1, coll1)) :
    coll1 = coll ∨ ∃ acc : UserAccount, (c1, coll1) = postAccount acc c coll := by
  unfold Accounts at h
  split at h
  · split at h
    · split at h
      · simp at h; exact Or.inl h.2.symm
      · simp at h; exact Or.inl h.2.symm
      · rename_i acc _
        simp only [Option.some.injEq] at h
        exact Or.inr ⟨acc, h.symm⟩
      · simp at h
    · simp at h; exact Or.inl h.2.symm
  · simp at h

/-- Handler `AccountDetails` never touches the collection. -/
theorem AccountDetails_store (c : Context) (coll : Collection) (c1 : Context)
    (coll1 : Collection) (h : AccountDetails c coll = some (c1, coll1)) : coll1 = coll := by
  unfold AccountDetails at h
  split at h
  · split at h
    · split at h
      · simp at h; exact h.2.symm
      · simp at h; exact h.2.symm
      · rename_i acc _
        simp only [Option.some.injEq] at h
        have := putAccount_store acc c coll
        rw [h] at this
        exact this
      · simp at h
    · simp at h; exact h.2.symm
  · simp at h

/-- After `Accounts`, on a context whose header is not out yet, a status of 400 or 404 means
that the collection is the one before. -/
theorem Accounts_client_error_store (c : Context) (coll : Collection) (c1 : Context)
    (coll1 : Collection) (hw : c.written = false) (h : Accounts c coll = some (c1, coll1))
    (hst : c1.status = 400 ∨ c1.status = 404) : coll1 = coll := by
  rcases Accounts_store_cases c coll c1 coll1 h with h1 | ⟨acc, h1⟩
  · exact h1
  · have e1 : c1 = (postAccount acc c coll).1 := congrArg Prod.fst h1
    have e2 : coll1 = (postAccount acc c coll).2 := congrArg Prod.snd h1
    rcases (postAccount_outcome acc c coll hw).2 with h2 | h2 | h2 | h2
    · rw [e2]; exact h2.2.2.1
    · rw [e2]; exact h2.2.2.2.1
    · rw [e1, h2.2.2.2.1] at hst
      rcases hst with hst | hst <;> simp at hst
    · rw [e1, h2.2.2.2.1] at hst
      rcases hst with hst | hst <;> simp at hst

/-- The payload parser on a context whose header is not out yet either aborts the request
or leaves the header unsent and the abort flag as it was. -/
theorem AccountPayload_cases (c : Context) (hw : c.written = false) :
    (AccountPayload c).aborted = true ∨
      ((AccountPayload c).written = false ∧ (AccountPayload c).aborted = c.aborted) := by
  by_cases hm : c.method = "POST" ∨ c.method = "PUT" ∨ c.method = "PATCH"
  · cases hb : c.body with
    | none =>
      obtain ⟨e, he⟩ := AccountPayload_failure c hm (Or.inl hb) hw
      left; rw [he]
    | some j =>
      cases hd : decodeInto ⟨"", "", ""⟩ j with
      | error e =>
        obtain ⟨e1, he⟩ := AccountPayload_failure c hm (Or.inr ⟨j, e, hb, hd⟩) hw
        left; rw [he]
      | ok p =>
        right
        rw [AccountPayload_success c j p hm hb hd]
        exact ⟨hw, rfl⟩
  · right
    have hm1 : ¬ (c.method = "POST" ∨ c.method = "PATCH" ∨ c.method = "PUT") := by tauto
    unfold AccountPayload
    rw [if_neg hm1]
    exact ⟨hw, rfl⟩

/-- A served request either is answered by the middleware, with the collection untouched
and the handler not run, or reaches the handler with the header not out yet. -/
theorem serve_cases (handler : HandlerFunc) (r : Request) (coll : Collection) :
    (∃ c3, c3.aborted = true ∧ serve handler r coll = some (c3, coll)) ∨
      (∃ c3, c3.written = false ∧ serve handler r coll = handler c3 coll) := by
  unfold serve
  by_cases hopt : r.method = "OPTIONS"
  · left
    simp [Next, CORS, Request.newContext, Context.Header, hopt, Context.AbortWithStatus,
      Context.Abort, Context.Status, Context.WriteHeaderNow, StatusOK]
  · have hcors : ∃ c1, CORS r.newContext coll = some (c1, coll) ∧ c1.written = false ∧
        c1.aborted = false := by
      simp [CORS, Request.newContext, Context.Header, hopt]
    obtain ⟨c1, h1, hw1, ha1⟩ := hcors
    have h0 : (r.newContext).aborted = false := rfl
    simp only [Next, h0, h1, ha1, DBCollection]
    have hw2 : (c1.Set "coll" (Value.coll "eensydb" "accounts")).written = false := hw1
    have ha2 : (c1.Set "coll" (Value.coll "eensydb" "accounts")).aborted = false := ha1
    simp only [ha2]
    rcases AccountPayload_cases _ hw2 with h3 | ⟨h3, h4⟩
    · left
      exact ⟨_, h3, by simp [h3]⟩
    · right
      rw [ha2] at h4
      refine ⟨_, h3, ?_⟩
      simp only [Bool.false_eq_true, if_false, h4]
      cases handler (AccountPayload (c1.Set "coll" (Value.coll "eensydb" "accounts"))) coll with
      | none => rfl
      | some p => rfl

/-- C2: for every request and every store state, if the request served by `Accounts` or by
`AccountDetails` ends with status 400 or 404 then the collection afterwards equals the
collection before, its count of received write commands included (no insert or update
was issued); the same holds for the handlers entered on any context whose header is not
out yet. In particular a create rejected as a duplicate ends with 400 on the unchanged
collection, and an update of an account that does not exist ends with 404 on the
unchanged collection. -/
theorem client_error_leaves_store (c : Context) (coll : Collection)
    (hw : c.written = false) :
    (∀ (r : Request) (s : Collection) c1 s1,
      (serve Accounts r s = some (c1, s1) ∨ serve AccountDetails r s = some (c1, s1)) →
      (c1.status = 400 ∨ c1.status = 404) → s1 = s) ∧
    (∀ c1 coll1, Accounts c coll = some (c1, coll1) →
      (c1.status = 400 ∨ c1.status = 404) → coll1 = coll) ∧
    (∀ c1 coll1, AccountDetails c coll = some (c1, coll1) →
      (c1.status = 400 ∨ c1.status = 404) → coll1 = coll) ∧
    (∀ (acc : UserAccount) (db cn : String), c.method = "POST" →
      c.Get "coll" = some (Value.coll db cn) → c.Get "account" = some (Value.account acc) →
      ValidateForCreate acc = none → CheckDuplicate acc coll ≠ none →
      ∃ c1, Accounts c coll = some (c1, coll) ∧ c1.status = 400) ∧
    (∀ (acc : UserAccount) (db cn : String), c.method = "PUT" →
      c.Get "coll" = some (Value.coll db cn) → c.Get "account" = some (Value.account acc) →
      ValidateForUpdate acc = none → CheckExists acc coll ≠ none →
      ∃ c1, AccountDetails c coll = some (c1, coll) ∧ c1.status = 404) := by
  refine ⟨?_, ?_, ?_, ?_, ?_⟩
  · intro r s c1 s1 h hst
    rcases h with h | h
    · rcases serve_cases Accounts r s with ⟨c3, _, h3⟩ | ⟨c3, hw3, h3⟩
      · rw [h3] at h
        simp only [Option.some.injEq, Prod.mk.injEq] at h
        exact h.2.symm
      · rw [h3] at h
        exact Accounts_client_error_store c3 s c1 s1 hw3 h hst
    · rcases serve_cases AccountDetails r s with ⟨c3, _, h3⟩ | ⟨c3, _, h3⟩
      · rw [h3] at h
        simp only [Option.some.injEq, Prod.mk.injEq] at h
        exact h.2.symm
      · rw [h3] at h
        exact AccountDetails_store c3 s c1 s1 h
  · intro c1 coll1 h hst
    exact Accounts_client_error_store c coll c1 coll1 hw h hst
  · intro c1 coll1 h _
    exact AccountDetails_store c coll c1 coll1 h
  · intro acc db cn hm hcoll hacc hv hd
    rcases (postAccount_outcome acc c coll hw).2 with h2 | h2 | h2 | h2
    · exact absurd hv h2.1
    · refine ⟨(postAccount acc c coll).1, ?_, h2.2.2.1⟩
      rw [Accounts_post_account c coll db cn acc hm hcoll hacc]
      exact congrArg some (Prod.ext rfl h2.2.2.2.1)
    · exact absurd h2.2.1 hd
    · exact absurd h2.2.1 hd
  · intro acc db cn hm hcoll hacc hv hx
    rcases putAccount_outcome acc c coll hw with h2 | h2 | h2
    · exact absurd hv h2.1
    · refine ⟨(putAccount acc c coll).1, ?_, h2.2.2.1⟩
      rw [AccountDetails_put_account c coll db cn acc hm hcoll hacc]
      exact congrArg some (Prod.ext rfl (putAccount_store acc c coll))
    · exact absurd h2.2.1 hx

/-- Witness for C2: the sample account posted to a collection that already holds it is
rejected with 400 and the collection is the one before, at the handler and for the
served request. -/
theorem client_error_leaves_store_witness :
    (∃ c1, Accounts postJohn johnColl = some (c1, johnColl) ∧ c1.status = 400) ∧
    (∃ c1 s1, serve Accounts ⟨"POST", [], some sampleAcc.toJson⟩ johnColl = some (c1, s1) ∧
      c1.status = 400 ∧ s1 = johnColl) :=
  ⟨(client_error_leaves_store postJohn johnColl rfl).2.2.2.1 sampleAcc "eensydb" "accounts"
      rfl rfl rfl rfl (by decide),
   ⟨_, _, rfl, rfl,
    (client_error_leaves_store postJohn johnColl rfl).1 ⟨"POST", [], some sampleAcc.toJson⟩
      johnColl _ _ (Or.inl rfl) (Or.inl rfl)⟩⟩

/-! ## What the handlers leave undone -/

/-- C7, evaluated: the sample account posted to an empty collection is inserted under the
generated identifier 0 and answered with 201, and the response has no body at all, so no
`id` member reaches the client. -/
theorem Accounts_created_without_id :
    ∃ c1 coll1, Accounts postJohn emptyColl = some (c1, coll1) ∧ c1.status = 201 ∧
      coll1.docs = [⟨0, "john.dore@gmail.com", "8980982093", "John Dore"⟩] ∧
      c1.respBody = [] ∧
      c1.effects = [Effect.header 201] :=
  ⟨_, _, rfl, rfl, rfl, rfl, rfl⟩

/-- C8, evaluated: a `PUT` with a new title and phone for the stored sample account passes
`ValidateForUpdate` and `CheckExists`, after which the handler returns the context and the
collection as they were: the status stays the default 200, and the stored record keeps
its old title and phone. -/
theorem AccountDetails_put_no_update :
    ValidateForUpdate ⟨"john.dore@gmail.com", "8390906860", "testPutTitle"⟩ = none ∧
      CheckExists ⟨"john.dore@gmail.com", "8390906860", "testPutTitle"⟩ johnColl = none ∧
      AccountDetails putJohn johnColl = some (putJohn, johnColl) ∧
      putJohn.status = 200 ∧
      johnColl.docs = [⟨0, "john.dore@gmail.com", "8980982093", "John Dore"⟩] :=
  ⟨rfl, rfl, rfl, rfl, rfl⟩

/-- C9, evaluated: a `GET` is not handled by `AccountDetails` at all. For an identifier that
matches no stored account the context comes back untouched, with the default status 200
instead of 404; for the identifier of the stored account no record is written. -/
theorem AccountDetails_get_untouched :
    AccountDetails (getById "7") johnColl = some (getById "7", johnColl) ∧
      (getById "7").status = 200 ∧ (getById "7").aborted = false ∧
      AccountDetails (getById "0") johnColl = some (getById "0", johnColl) ∧
      (getById "0").respBody = [] :=
  ⟨rfl, rfl, rfl, rfl, rfl⟩

/-! ## The shape of error bodies -/

/-- The result of `Accounts` on a `POST`: the error for a missing account, or the `POST`
branch on the stored account. -/
theorem Accounts_post_cases (c : Context) (coll : Collection) (c1 : Context)
    (coll1 : Collection) (hm : c.method = "POST") (h : Accounts c coll = some (c1, coll1)) :
    c1 = ThrowErr "Accounts: invalid account in payload, cannot be nil"
        (WithFields [("payload", LogVal.nil)]) StatusBadRequest c ∨
      ∃ acc : UserAccount, (c1, coll1) = postAccount acc c coll := by
  unfold Accounts at h
  split at h
  · rw [if_pos hm] at h
    split at h
    · simp at h; exact Or.inl h.1.symm
    · simp at h; exact Or.inl h.1.symm
    · rename_i acc _
      simp only [Option.some.injEq] at h
      exact Or.inr ⟨acc, h.symm⟩
    · simp at h
  · simp at h

/-- C10, counterexample: the 400 of `AccountPayload` on a body that is not JSON carries the
empty object, which has no `err` member; and the 400 of `AccountDetails` on a payload that
fails `ValidateForUpdate` carries no body. -/
theorem payload_error_body_counterexample :
    (AccountPayload postGarbage).status = 400 ∧
      (AccountPayload postGarbage).respBody = [H []] ∧
      (¬ ∃ m : String, (AccountPayload postGarbage).respBody = [H [("err", Json.str m)]]) ∧
      (∃ c1, AccountDetails putUntitled johnColl = some (c1, johnColl) ∧ c1.status = 400 ∧
        c1.respBody = []) := by
  refine ⟨rfl, rfl, ?_, ⟨_, rfl, rfl, rfl⟩⟩
  rintro ⟨m, hm⟩
  have h0 : (AccountPayload postGarbage).respBody = [H []] := rfl
  rw [h0] at hm
  simp [H] at hm

/-- C10, amended: on a context whose header is not out yet, every error response (400 or
500) of `Accounts` to a `POST`, the 400 of `AccountDetails` to a `PUT` without an account and
its 404 to a `PUT` for an account that is not found, add to the response exactly one body,
the object whose single member `err` holds the category message of the status; the 400 of
`AccountPayload` on a body that does not decode adds the empty object. -/
theorem error_body_shape (c : Context) (coll : Collection) (hw : c.written = false) :
    (∀ c1 coll1, c.method = "POST" → Accounts c coll = some (c1, coll1) →
      (c1.status = 400 ∨ c1.status = 404 ∨ c1.status = 500) →
      c1.respBody = c.respBody ++ [H [("err", Json.str (categoryMessage c1.status))]]) ∧
    (∀ db cn : String, c.method = "PUT" → c.Get "coll" = some (Value.coll db cn) →
      (c.Get "account" = none ∨ c.Get "account" = some Value.nil) →
      ∃ c1, AccountDetails c coll = some (c1, coll) ∧ c1.status = 400 ∧
        c1.respBody = c.respBody ++ [H [("err", Json.str (categoryMessage 400))]]) ∧
    (∀ (acc : UserAccount) (db cn : String), c.method = "PUT" →
      c.Get "coll" = some (Value.coll db cn) → c.Get "account" = some (Value.account acc) →
      ValidateForUpdate acc = none → CheckExists acc coll ≠ none →
      ∃ c1, AccountDetails c coll = some (c1, coll) ∧ c1.status = 404 ∧
        c1.respBody = c.respBody ++ [H [("err", Json.str (categoryMessage 404))]]) ∧
    ((c.method = "POST" ∨ c.method = "PUT" ∨ c.method = "PATCH") →
      (c.body = none ∨ ∃ j e, c.body = some j ∧ decodeInto ⟨"", "", ""⟩ j = Except.error e) →
      (AccountPayload c).status = 400 ∧
        (AccountPayload c).respBody = c.respBody ++ [H []]) := by
  refine ⟨?_, ?_, ?_, ?_⟩
  · intro c1 coll1 hm h hst
    rcases Accounts_post_cases c coll c1 coll1 hm h with h1 | ⟨acc, h1⟩
    · have hs : c1.status = 400 := by
        rw [h1, StatusBadRequest, ThrowErr_fresh _ _ 400 c (Or.inl rfl) hw]
      rw [hs, h1, StatusBadRequest]
      exact ThrowErr_respBody _ _ 400 c (Or.inl rfl) hw
    · have e1 : c1 = (postAccount acc c coll).1 := congrArg Prod.fst h1
      rcases (postAccount_outcome acc c coll hw).2 with h2 | h2 | h2 | h2
      · rw [e1, h2.2.1]; exact h2.2.2.2
      · rw [e1, h2.2.2.1]; exact h2.2.2.2.2
      · rw [e1, h2.2.2.2.1]; exact h2.2.2.2.2.2
      · rw [e1, h2.2.2.2.1] at hst
        rcases hst with hst | hst | hst <;> simp at hst
  · intro db cn hm hcoll hacc
    refine ⟨_, AccountDetails_put_absent c coll db cn hm hcoll hacc, ?_, ?_⟩
    · rw [StatusBadRequest, ThrowErr_fresh _ _ 400 c (Or.inl rfl) hw]
    · rw [StatusBadRequest]
      exact ThrowErr_respBody _ _ 400 c (Or.inl rfl) hw
  · intro acc db cn hm hcoll hacc hv hx
    rcases putAccount_outcome acc c coll hw with h2 | h2 | h2
    · exact absurd hv h2.1
    · refine ⟨(putAccount acc c coll).1, ?_, h2.2.2.1, h2.2.2.2.2⟩
      rw [AccountDetails_put_account c coll db cn acc hm hcoll hacc]
      exact congrArg some (Prod.ext rfl (putAccount_store acc c coll))
    · exact absurd h2.2.1 hx
  · intro hm hbad
    obtain ⟨e, he⟩ := AccountPayload_failure c hm hbad hw
    rw [he]
    simp [Context.respBody, List.filterMap_append]

/-- Witness for C10 (amended): the 500 of `Accounts` when the store refuses the insert. -/
theorem error_body_shape_witness :
    ∃ c1 coll1, Accounts postJohn downColl = some (c1, coll1) ∧ c1.status = 500 ∧
      c1.respBody =
        [H [("err", Json.str
          "One or more operations on the server has failed, please try after sometime")]] :=
  ⟨_, _, rfl, rfl,
    (error_body_shape postJohn downColl rfl).1 _ _ rfl rfl (Or.inr (Or.inr rfl))⟩

end UsrvAccounts
